import Mathlib

/-!
Verification of the EMF data-mining differential-expression scripts.

Shallow embedding of the two differential-expression entry points of the
repository (`src/DEA/fcsigB.py` and `src/DEA/mzscore.py`) and proofs about
their filtering, scoring, rounding, rendering and error-handling behaviour.

SQLite `NUMERIC` values are modelled as `Option ℚ` (`none` is SQL `NULL`);
a comparison with a `NULL` operand is not satisfied in a `WHERE` clause, and
the scalar `MAX`/`MIN` functions return `NULL` as soon as one argument is
`NULL`, exactly as SQLite does.  Real-valued library functions (`math.log`,
`scipy.stats.norm.cdf`, `numpy` standard deviation) are modelled over `ℝ`,
with Python exceptions that the scripts catch turned into `none`.
-/

/-- A nullable SQLite numeric value. -/
abbrev SqlVal := Option ℚ

/-- SQLite scalar `MAX(a, b)`: `NULL` if any argument is `NULL`. -/
def sqlMax2 (a b : SqlVal) : SqlVal :=
  match a, b with
  | some x, some y => some (max x y)
  | _, _ => none

/-- SQLite scalar `MAX(a, b, c, d)`: `NULL` if any argument is `NULL`. -/
def sqlMax4 (a b c d : SqlVal) : SqlVal :=
  sqlMax2 (sqlMax2 a b) (sqlMax2 c d)

/-- SQLite scalar `MIN(a, b, c, d)`: `NULL` if any argument is `NULL`. -/
def sqlMin4 (a b c d : SqlVal) : SqlVal :=
  match a, b, c, d with
  | some x, some y, some z, some w => some (min (min x y) (min z w))
  | _, _, _, _ => none

/-- SQL `a > b` as used in a `WHERE` clause: false when an operand is `NULL`. -/
def sgt (a b : SqlVal) : Bool :=
  match a, b with
  | some x, some y => decide (x > y)
  | _, _ => false

/-- SQL `a < b` as used in a `WHERE` clause: false when an operand is `NULL`. -/
def slt (a b : SqlVal) : Bool :=
  match a, b with
  | some x, some y => decide (x < y)
  | _, _ => false

/-- SQL `a >= b` as used in a `WHERE` clause: false when an operand is `NULL`. -/
def sge (a b : SqlVal) : Bool :=
  match a, b with
  | some x, some y => decide (x ≥ y)
  | _, _ => false

/-- SQL `a <= b` as used in a `WHERE` clause: false when an operand is `NULL`. -/
def sle (a b : SqlVal) : Bool :=
  match a, b with
  | some x, some y => decide (x ≤ y)
  | _, _ => false

/-- Rounding to 4 decimal places, half away from zero.  This is the rounding
rule of both SQLite `ROUND(x, 4)` and Python 2 `round(x, 4)`, which the two
scripts use on every emitted score. -/
def round4 (x : ℚ) : ℚ :=
  if 0 ≤ x then (⌊x * 10000 + 1/2⌋ : ℤ) / 10000
  else -((⌊(-x) * 10000 + 1/2⌋ : ℤ) / 10000)

namespace fcsigB

/-- The columns of one `VVV_PGROUP_QUANT` row that `fcsigB.py` reads for the
selected dataset `dts`.  Field `e1XY` is column `{dts}_L0_M0_H1_norm_ratio_XY`
(experiment 1), `e2XY` is `{dts}_L1_M1_H0_norm_ratio_XY` (experiment 2,
dye swap), `s1XY`/`s2XY` are the corresponding `sig_ratio` (significance B)
columns used by the query. -/
structure QuantRow where
  e1HL : SqlVal
  e1HM : SqlVal
  e1LH : SqlVal
  e1MH : SqlVal
  e1LM : SqlVal
  e1ML : SqlVal
  e2HL : SqlVal
  e2HM : SqlVal
  e2LH : SqlVal
  e2MH : SqlVal
  e2LM : SqlVal
  e2ML : SqlVal
  s1HL : SqlVal
  s1HM : SqlVal
  s1LM : SqlVal
  s2LH : SqlVal
  s2MH : SqlVal
  s2LM : SqlVal
deriving DecidableEq

/-- The dye-swap fold-change test of `sql_sel_pgrps` (`fcsigB.py`, lines
142–149): either all four forward-direction normalized ratios, or all four
mirrored-direction normalized ratios, exceed the fold-change cutoff. -/
def fc_test (cutoff : ℚ) (r : QuantRow) : Bool :=
  (sgt r.e1HL (some cutoff) && sgt r.e1HM (some cutoff) &&
   sgt r.e2LH (some cutoff) && sgt r.e2MH (some cutoff))
  || (sgt r.e1LH (some cutoff) && sgt r.e1MH (some cutoff) &&
      sgt r.e2HL (some cutoff) && sgt r.e2HM (some cutoff))

/-- The filter `treat_gt_ctrl_ratio_filter` (`fcsigB.py`, lines 104–111): the minimum,
over the four treatment channel pairs, of the maximum of the two directional
ratios of the pair, must exceed the maximum of the four control-direction
ratios. -/
def treat_gt_ctrl_ratio_filter (r : QuantRow) : Bool :=
  sgt (sqlMin4 (sqlMax2 r.e1HL r.e1LH)
               (sqlMax2 r.e1HM r.e1MH)
               (sqlMax2 r.e2LH r.e2HL)
               (sqlMax2 r.e2MH r.e2HM))
      (sqlMax4 r.e1LM r.e1ML r.e2LM r.e2ML)

/-- The filter `sigB_filter` (`fcsigB.py`, lines 95–102): the four treatment-direction
significance-B values must fall strictly below the cutoff and the two
control significance-B values must fall at or above it. -/
def sigB_filter (cutoff : ℚ) (r : QuantRow) : Bool :=
  slt r.s1HL (some cutoff) && slt r.s1HM (some cutoff) &&
  slt r.s2LH (some cutoff) && slt r.s2MH (some cutoff) &&
  sge r.s1LM (some cutoff) && sge r.s2LM (some cutoff)

/-- The two classifier modes of `fcsigB.py`. -/
inductive Mode where
  | magnitude
  | sigtest
deriving DecidableEq

/-- Mode selection of line 113 of `fcsigB.py`:
`extra_filter = sigB_filter if sigB_cutoff != 1 else treat_gt_ctrl_ratio_filter`. -/
def mode_of (sigB_cutoff : ℚ) : Mode :=
  if sigB_cutoff ≠ 1 then Mode.sigtest else Mode.magnitude

/-- The extra filter appended to the `WHERE` clause, as selected by
`mode_of`. -/
def extra_filter (sigB_cutoff : ℚ) (r : QuantRow) : Bool :=
  match mode_of sigB_cutoff with
  | Mode.sigtest => sigB_filter sigB_cutoff r
  | Mode.magnitude => treat_gt_ctrl_ratio_filter r

/-- The full `WHERE` clause of `sql_sel_pgrps` on one quantification row
(the join conditions on `PROT2GRP`/`V_PROTEIN` only attach gene names and do
not constrain these columns). -/
def sel_pgrps_where (fc_cutoff sigB_cutoff : ℚ) (r : QuantRow) : Bool :=
  fc_test fc_cutoff r && extra_filter sigB_cutoff r

/-- The magnitude-comparison rule as the specification words it: the maximum
of the four treatment-direction normalized ratios across both experiments is
strictly greater than the maximum of the control-direction normalized ratios
across both experiments.  Stated for comparison with the implemented
`treat_gt_ctrl_ratio_filter`. -/
def treat_gt_ctrl_ratio_spec (r : QuantRow) : Bool :=
  sgt (sqlMax4 r.e1HL r.e2LH r.e1HM r.e2MH)
      (sqlMax4 r.e1LM r.e1ML r.e2LM r.e2ML)

/-- Build a row whose twelve normalized-ratio columns are all non-`NULL` and
whose significance-B columns are all `NULL`. -/
def mkRatioRow (a1 b1 c1 d1 e1 f1 a2 b2 c2 d2 e2 f2 : ℚ) : QuantRow :=
  ⟨some a1, some b1, some c1, some d1, some e1, some f1,
   some a2, some b2, some c2, some d2, some e2, some f2,
   none, none, none, none, none, none⟩

/-- A concrete row that passes the dye-swap fold-change test at cutoff 1:
experiment-1 ratios H/L = 7, H/M = 2, L/M = 3, all other directions 1;
experiment-2 ratios L/H = M/H = 2, all other directions 1. -/
def exRowMag : QuantRow :=
  mkRatioRow 7 2 1 1 3 1 1 1 2 2 1 1

/-- A concrete row for the significance-test mode: normalized ratios pass
the fold-change test at cutoff 1; the four treatment significance-B values
are 0 and the two control significance-B values are 1. -/
def exRowSig : QuantRow :=
  ⟨some 2, some 2, some 1, some 1, some 1, some 1,
   some 1, some 1, some 2, some 2, some 1, some 1,
   some 0, some 0, some 1, some 0, some 0, some 1⟩

end fcsigB

namespace mzscore

/-- The `ratio_types` lookup of `mzscore.py` (lines 29–36), pairing each
`quant_type` value with the derived `ratio_type` column name. -/
def ratio_types : List (String × String) :=
  [("RATIO H/L", "raw_ratio_HL"),
   ("RATIO H/M", "raw_ratio_HM"),
   ("RATIO M/L", "raw_ratio_ML"),
   ("RATIO H/L NORMALIZED", "norm_ratio_HL"),
   ("RATIO H/M NORMALIZED", "norm_ratio_HM"),
   ("RATIO M/L NORMALIZED", "norm_ratio_ML")]

/-- One `PGROUP_QUANT` row joined with `V_PGROUP` membership. -/
structure PGroupQuantRec where
  grp_id : ℕ
  exp_name : String
  quant_type : String
  quant_value : SqlVal
deriving DecidableEq

/-- One row of the derived view `V_PGROUP_RATIO`. -/
structure RatioRec where
  grp_id : ℕ
  exp_name : String
  ratio_type : Option String
  ratio_value : SqlVal
deriving DecidableEq

/-- SQLite truthiness of a numeric value in a `WHERE` clause (the bare
`AND quant_value` condition): `NULL` and `0` are false, any other number is
true. -/
def sqlTruthy (v : SqlVal) : Bool :=
  match v with
  | none => false
  | some x => decide (x ≠ 0)

/-- The `CASE quant_type … END` expression of the view (no `ELSE` branch, so
an unmatched value yields `NULL`). -/
def caseRatioType (qt : String) : Option String :=
  (ratio_types.find? (fun p => p.1 == qt)).map Prod.snd

/-- The view `V_PGROUP_RATIO` (`mzscore.py`, lines 171–186): keeps the rows
of `PGROUP_QUANT` whose group appears in `V_PGROUP`, whose `quant_type` is
one of the six ratio types, and whose `quant_value` is truthy (non-`NULL`
and non-zero). -/
def v_pgroup_ratio_view (quants : List PGroupQuantRec) (grpIds : List ℕ) :
    List RatioRec :=
  quants.filterMap (fun r =>
    if grpIds.contains r.grp_id
        && (ratio_types.map Prod.fst).contains r.quant_type
        && sqlTruthy r.quant_value
    then some ⟨r.grp_id, r.exp_name, caseRatioType r.quant_type, r.quant_value⟩
    else none)

/-- A quantification row carrying a negative ratio value. -/
def negQuantRec : PGroupQuantRec :=
  ⟨1, "VH10_L0_M0_H1", "RATIO H/L", some (-1)⟩

/-- Sum of squared deviations from the arithmetic mean, the numerator of the
`numpy` variance computed by `Stdev.finalize`. -/
def sumSqDev (l : List ℚ) : ℚ :=
  (l.map (fun x => (x - l.sum / l.length) ^ 2)).sum

/-- The sample variance computed by `numpy` `std(ddof=1)` inside
`Stdev.finalize` (`mzscore.py`, lines 139–147): the float result is `NaN`
(hence SQL `NULL`, modelled as `none`) when the bucket is empty (mean of an
empty slice) or a singleton (`0/0`); otherwise it is the sum of squared
deviations divided by `n − 1`. -/
def sampleVar (l : List ℚ) : Option ℚ :=
  if l.length = 0 then none
  else if l.length = 1 then none
  else some (sumSqDev l / (l.length - 1))

/-- The aggregate result `Stdev.finalize`: the square root of the sample variance (`NaN`/`NULL`
propagates). -/
noncomputable def finalizeStdev (l : List ℚ) : Option ℝ :=
  (sampleVar l).map (fun v => Real.sqrt (v : ℝ))

/-- The `z_score` column of `PGROUP_MZSCORE` (`mzscore.py`, line 230), as a
function of the log2-transformed ratio value `l` and the bucket statistics:
`(LOG(ratio_value, 2) - mean) / sd`, `NULL` when any input is `NULL` or the
standard deviation is zero (SQLite division by zero yields `NULL`). -/
def z_score (l mean sd : SqlVal) : SqlVal :=
  match l, mean, sd with
  | some x, some μ, some σ => if σ = 0 then none else some ((x - μ) / σ)
  | _, _, _ => none

/-- The `m_score` column of `PGROUP_MZSCORE` (`mzscore.py`, line 231):
`0.6745 * (LOG(ratio_value, 2) - median) / mad`, `NULL` when any input is
`NULL` or the median absolute deviation is zero. -/
def m_score (l median mad : SqlVal) : SqlVal :=
  match l, median, mad with
  | some x, some m, some M =>
    if M = 0 then none else some (6745 / 10000 * (x - m) / M)
  | _, _, _ => none

/-- A forward-direction channel of the `V_PGROUP_MZSCORE` view
(`mzscore.py`, lines 312 and 314): the stored score of the measured
direction, rounded to 4 decimals. -/
def fwd_channel (s : SqlVal) : SqlVal :=
  s.map round4

/-- An inverse-direction channel of the `V_PGROUP_MZSCORE` view
(`mzscore.py`, lines 313 and 315): `-1 *` the stored score, rounded to 4
decimals. -/
def inv_channel (s : SqlVal) : SqlVal :=
  (s.map (fun x => -1 * x)).map round4

/-- The twelve columns of one `V_PGROUP_MZSCORE` row that `sql_sel_pgrps`
reads for the selected dataset and score type: `e1XY` is column
`{dts}_L0_M0_H1_{score_type}_XY`, `e2XY` is `{dts}_L1_M1_H0_{score_type}_XY`.
This is only the shape of a row; the rows the view can actually produce are
the images of `mkMZRow`, which couples each pair of directional columns. -/
structure MZRow where
  e1HL : SqlVal
  e1HM : SqlVal
  e1LH : SqlVal
  e1MH : SqlVal
  e1LM : SqlVal
  e1ML : SqlVal
  e2HL : SqlVal
  e2HM : SqlVal
  e2LH : SqlVal
  e2MH : SqlVal
  e2LM : SqlVal
  e2ML : SqlVal
deriving DecidableEq

/-- The `WHERE` clause of `sql_sel_pgrps` in `mzscore.py` (lines 264–275) on
one score row. -/
def mz_where (cutoff : ℚ) (r : MZRow) : Bool :=
  ((sgt r.e1HL (some cutoff) && sgt r.e1HM (some cutoff) &&
    sgt r.e2LH (some cutoff) && sgt r.e2MH (some cutoff))
   || (sgt r.e1LH (some cutoff) && sgt r.e1MH (some cutoff) &&
       sgt r.e2HL (some cutoff) && sgt r.e2HM (some cutoff)))
  && sle r.e1ML (some cutoff) && sle r.e1LM (some cutoff)
  && sle r.e2ML (some cutoff) && sle r.e2LM (some cutoff)

/-- The six score cells emitted by the `SELECT` list of `sql_sel_pgrps`
(`mzscore.py`, lines 247–252), in output order. -/
def mz_score_cells (r : MZRow) : List SqlVal :=
  [r.e1HL, r.e2LH, r.e1HM, r.e2MH, r.e1LM, r.e2LM]

/-- The underlying aggregates of one `V_PGROUP_MZSCORE` row for the selected
dataset and score type: for each experiment and each measured ratio pair
(H/L, H/M, M/L), the `GROUP_CONCAT`-aggregated stored score of the group
(`NULL` when the group has no measurement in that channel).  The view
derives both directional columns of a pair from this one value. -/
structure MZSource where
  s1HL : SqlVal
  s1HM : SqlVal
  s1ML : SqlVal
  s2HL : SqlVal
  s2HM : SqlVal
  s2ML : SqlVal
deriving DecidableEq

/-- The `V_PGROUP_MZSCORE` row built by `sql_create_view` (`mzscore.py`,
lines 301–317): each measured pair XY yields the forward column XY and the
inverse column YX from the same `CASE` rows, so the two directional columns
of a pair are `NULL` together. -/
def mkMZRow (src : MZSource) : MZRow :=
  ⟨fwd_channel src.s1HL, fwd_channel src.s1HM, inv_channel src.s1HL,
   inv_channel src.s1HM, inv_channel src.s1ML, fwd_channel src.s1ML,
   fwd_channel src.s2HL, fwd_channel src.s2HM, inv_channel src.s2HL,
   inv_channel src.s2HM, inv_channel src.s2ML, fwd_channel src.s2ML⟩

/-- A concrete realizable source whose row passes `mz_where` at cutoff 1:
experiment-1 H/L and H/M scores 2, experiment-2 H/L and H/M scores −2 (the
dye swap flips the sign, so the L/H and M/H columns hold 2), both M/L
scores 0. -/
def exMZSource : MZSource :=
  ⟨some 2, some 2, some 0, some (-2), some (-2), some 0⟩

end mzscore

/-- One rendered output cell: either the literal `NA` marker or a rounded
number. -/
inductive Cell where
  | NA
  | num (q : ℚ)
deriving DecidableEq

/-- Rendering of one score cell in `fcsigB.py` (line 173):
`'NA' if x is None else str(round(float(x), 4))`. -/
def render_cell_fcsigB (x : SqlVal) : Cell :=
  match x with
  | none => Cell.NA
  | some q => Cell.num (round4 q)

/-- Rendering of one output row in `fcsigB.py`. -/
def render_row_fcsigB (cells : List SqlVal) : List Cell :=
  cells.map render_cell_fcsigB

/-- Rendering of one score cell in `mzscore.py` (line 335):
`str(round(float(x), 4))` with no `None` guard — `float(None)` raises an
uncaught `TypeError`, modelled as `none`. -/
def render_cell_mzscore (x : SqlVal) : Option Cell :=
  match x with
  | none => none
  | some q => some (Cell.num (round4 q))

/-- Rendering of one output row in `mzscore.py`: the list comprehension
evaluates the cells left to right and aborts (`none`) as soon as one cell is
`NULL`. -/
def render_row_mzscore (cells : List SqlVal) : Option (List Cell) :=
  match cells with
  | [] => some []
  | x :: xs =>
    match render_cell_mzscore x with
    | none => none
    | some c => (render_row_mzscore xs).map (fun cs => c :: cs)

/-- Outcome of executing the selection query. -/
inductive QueryOutcome where
  | ok (rows : List (List SqlVal))
  | opError
deriving DecidableEq

/-- Observable final state of one run: the process exit code and whether the
output file still exists on disk afterwards. -/
structure RunOutcome where
  exitCode : ℕ
  outfileExists : Bool
deriving DecidableEq

/-- Tail behaviour of `main` in `fcsigB.py` (lines 154–190): on
`sqlite3.OperationalError` it prints to stderr, removes the output file and
exits with status 1; otherwise it writes the rendered rows, removes the file
when it is empty, and exits normally. -/
def fcsigB_run (q : QueryOutcome) : RunOutcome :=
  match q with
  | QueryOutcome.opError => ⟨1, false⟩
  | QueryOutcome.ok rows =>
    if (rows.map render_row_fcsigB).isEmpty then ⟨0, false⟩ else ⟨0, true⟩

/-- Tail behaviour of `mzscore.py` (lines 319–349): on
`sqlite3.OperationalError` it prints to stderr and exits with status 1
without removing the already-opened output file; a `NULL` cell raises an
uncaught `TypeError` (exit status 1, file left behind); otherwise it writes
the rendered rows and removes the file when it is empty. -/
def mzscore_run (q : QueryOutcome) : RunOutcome :=
  match q with
  | QueryOutcome.opError => ⟨1, true⟩
  | QueryOutcome.ok rows =>
    match rows.mapM render_row_mzscore with
    | none => ⟨1, true⟩
    | some rendered => if rendered.isEmpty then ⟨0, false⟩ else ⟨0, true⟩

/-- The `log(value, base)` user-defined function registered by both
`fcsigB.py` (lines 86–90) and `mzscore.py` (lines 121–125):
`math.log(value) / math.log(base)` with every exception caught and turned
into `None` — `TypeError` on a `None` argument, `ValueError` on a
non-positive argument of `math.log`, `ZeroDivisionError` when
`math.log(base)` is zero (base 1). -/
noncomputable def logUDF (value base : Option ℝ) : Option ℝ :=
  match value, base with
  | some v, some b =>
    if 0 < v ∧ 0 < b ∧ Real.log b ≠ 0
    then some (Real.log v / Real.log b)
    else none
  | _, _ => none

/-- The standard normal cumulative distribution function, the model of
`scipy.stats.norm.cdf`. -/
noncomputable def stdNormCDF (x : ℝ) : ℝ :=
  ProbabilityTheory.cdf (ProbabilityTheory.gaussianReal 0 1) x

/-- The `pvalue(score)` user-defined function of `mzscore.py` (lines
133–137): `2 * st.norm.cdf(-abs(score))`, with the `TypeError` raised by
`abs(None)` caught and turned into `None`. -/
noncomputable def pvalue (score : Option ℝ) : Option ℝ :=
  match score with
  | some s => some (2 * stdNormCDF (-|s|))
  | none => none

/-!
Helper lemmas.
-/

/-- Rounding half away from zero is an odd function. -/
theorem round4_neg (x : ℚ) : round4 (-x) = - round4 x := by
  rcases lt_trichotomy x 0 with hx | hx | hx
  · have h1 : 0 ≤ -x := by linarith
    have h2 : ¬ 0 ≤ x := by linarith
    simp only [round4, if_pos h1, if_neg h2, neg_neg]
  · subst hx
    norm_num [round4]
  · have h1 : ¬ 0 ≤ -x := by linarith
    have h2 : 0 ≤ x := le_of_lt hx
    simp only [round4, if_pos h2, if_neg h1, neg_neg]

/-- The `mzscore.py` row rendering aborts exactly when some cell is `NULL`. -/
theorem render_row_mzscore_eq_none_iff (cells : List SqlVal) :
    render_row_mzscore cells = none ↔ none ∈ cells := by
  induction cells with
  | nil => simp [render_row_mzscore]
  | cons c cs ih =>
    cases c with
    | none => simp [render_row_mzscore, render_cell_mzscore]
    | some q =>
      simp only [render_row_mzscore, render_cell_mzscore, List.mem_cons]
      cases h : render_row_mzscore cs with
      | none => simp [h, ih.mp h]
      | some r =>
        have : ¬ (none ∈ cs) := fun hm => by
          rw [ih.mpr hm] at h
          exact Option.noConfusion h
        simp [h, this]

/-!
Claim theorems.
-/

/-- Claim C1, counterexample.  The claim reads the magnitude-comparison rule
as "max of the four treatment-direction ratios > max of the control-direction
ratios".  The row `exRowMag` passes the dye-swap fold-change test at cutoff 1
and satisfies that reading, yet the query (fold-change cutoff 1, significance
cutoff left at the sentinel 1, hence magnitude-comparison mode) does not
classify it as differentially regulated, because the implemented filter
compares the *minimum* over the four channel pairs of the pairwise maxima. -/
theorem magnitude_rule_counterexample :
    fcsigB.fc_test 1 fcsigB.exRowMag = true
    ∧ fcsigB.treat_gt_ctrl_ratio_spec fcsigB.exRowMag = true
    ∧ fcsigB.sel_pgrps_where 1 1 fcsigB.exRowMag = false := by
  refine ⟨by decide, by decide, by decide⟩

/-- Claim C1, amended.  For a group with all twelve normalized ratios
present that passes the dye-swap fold-change test, magnitude-comparison mode
classifies it as differentially regulated iff the minimum, over the four
treatment channel pairs, of the maximum of the pair's two directional
ratios is strictly greater than the maximum of the four control-direction
ratios across both experiments. -/
theorem magnitude_rule_min_pair_maxima
    (c hl1 hm1 lh1 mh1 lm1 ml1 hl2 hm2 lh2 mh2 lm2 ml2 : ℚ)
    (h : fcsigB.fc_test c
      (fcsigB.mkRatioRow hl1 hm1 lh1 mh1 lm1 ml1 hl2 hm2 lh2 mh2 lm2 ml2) = true) :
    fcsigB.sel_pgrps_where c 1
      (fcsigB.mkRatioRow hl1 hm1 lh1 mh1 lm1 ml1 hl2 hm2 lh2 mh2 lm2 ml2) = true
    ↔ max (max lm1 ml1) (max lm2 ml2)
        < min (min (max hl1 lh1) (max hm1 mh1)) (min (max lh2 hl2) (max mh2 hm2)) := by
  simp only [fcsigB.sel_pgrps_where, h, Bool.true_and]
  simp [fcsigB.extra_filter, fcsigB.mode_of, fcsigB.treat_gt_ctrl_ratio_filter,
        fcsigB.mkRatioRow, sqlMin4, sqlMax2, sqlMax4, sgt]

/-- Witness for the amended C1 theorem at a concrete row. -/
theorem magnitude_rule_min_pair_maxima_witness :
    fcsigB.sel_pgrps_where 1 1 (fcsigB.mkRatioRow 5 5 1 1 1 1 1 1 5 5 1 1) = true
    ↔ max (max 1 1) (max 1 1)
        < min (min (max 5 1) (max 5 1)) (min (max (5:ℚ) 1) (max 5 1)) :=
  magnitude_rule_min_pair_maxima 1 5 5 1 1 1 1 1 1 5 5 1 1 (by decide)

/-- Claim C2, counterexample.  At fold-change cutoff 1 and significance
cutoff 1/2 (significance-test mode), the row `exRowSig` qualifies although
its control significance values (1 in both experiments) do not fall below
the cutoff and its treatment significance values (0) do not fall at or above
it — the claim swaps the two directions of the implemented test. -/
theorem sigB_direction_counterexample :
    fcsigB.sel_pgrps_where 1 (1/2) fcsigB.exRowSig = true
    ∧ fcsigB.exRowSig.s1LM = some 1 ∧ ¬ ((1:ℚ) < 1/2)
    ∧ fcsigB.exRowSig.s1HL = some 0 ∧ ¬ ((1:ℚ)/2 ≤ 0) := by
  refine ⟨?_, rfl, by norm_num, rfl, by norm_num⟩
  norm_num [fcsigB.sel_pgrps_where, fcsigB.fc_test, fcsigB.extra_filter,
            fcsigB.mode_of, fcsigB.sigB_filter, sgt, slt, sge, fcsigB.exRowSig]

/-- Claim C2, amended.  In significance-test mode (cutoff different from the
sentinel 1), a group with non-`NULL` significance columns qualifies iff it
passes the dye-swap fold-change test, its four treatment-direction
significance-B values fall strictly below the cutoff, and its two control
significance-B values fall at or above the cutoff. -/
theorem sigB_mode_characterization
    (f c p1 p2 p3 p4 q1 q2 : ℚ) (r : fcsigB.QuantRow) (hc : c ≠ 1)
    (h1 : r.s1HL = some p1) (h2 : r.s1HM = some p2) (h3 : r.s2LH = some p3)
    (h4 : r.s2MH = some p4) (h5 : r.s1LM = some q1) (h6 : r.s2LM = some q2) :
    fcsigB.sel_pgrps_where f c r = true ↔
      (fcsigB.fc_test f r = true ∧
       p1 < c ∧ p2 < c ∧ p3 < c ∧ p4 < c ∧ c ≤ q1 ∧ c ≤ q2) := by
  simp [fcsigB.sel_pgrps_where, fcsigB.extra_filter, fcsigB.mode_of, hc,
        fcsigB.sigB_filter, slt, sge, h1, h2, h3, h4, h5, h6, and_assoc]

/-- Witness for the amended C2 theorem at a concrete row. -/
theorem sigB_mode_characterization_witness :
    fcsigB.sel_pgrps_where 1 (1/2) fcsigB.exRowSig = true ↔
      (fcsigB.fc_test 1 fcsigB.exRowSig = true ∧
       (0:ℚ) < 1/2 ∧ (0:ℚ) < 1/2 ∧ (0:ℚ) < 1/2 ∧ (0:ℚ) < 1/2 ∧
       (1:ℚ)/2 ≤ 1 ∧ (1:ℚ)/2 ≤ 1) :=
  sigB_mode_characterization 1 (1/2) 0 0 0 0 1 1 fcsigB.exRowSig
    (by simp) rfl rfl rfl rfl rfl rfl

/-- Claim C4.  Magnitude-comparison mode is selected exactly when the
significance cutoff equals the sentinel 1, in which case the extra filter is
`treat_gt_ctrl_ratio_filter`; for any cutoff in [0, 1] different from 1,
significance-test mode is selected and the extra filter is `sigB_filter`. -/
theorem mode_selection_sentinel (c : ℚ) (r : fcsigB.QuantRow) :
    (fcsigB.mode_of c = fcsigB.Mode.magnitude ↔ c = 1)
    ∧ (c = 1 → fcsigB.extra_filter c r = fcsigB.treat_gt_ctrl_ratio_filter r)
    ∧ (0 ≤ c → c ≤ 1 → c ≠ 1 →
        fcsigB.mode_of c = fcsigB.Mode.sigtest
        ∧ fcsigB.extra_filter c r = fcsigB.sigB_filter c r) := by
  by_cases hc : c = 1
  · subst hc
    exact ⟨by simp [fcsigB.mode_of],
           fun _ => by simp [fcsigB.extra_filter, fcsigB.mode_of],
           fun _ _ h => absurd rfl h⟩
  · exact ⟨by simp [fcsigB.mode_of, hc],
           fun h => absurd h hc,
           fun _ _ _ => ⟨by simp [fcsigB.mode_of, hc],
                         by simp [fcsigB.extra_filter, fcsigB.mode_of, hc]⟩⟩

/-- Witness for C4 at cutoff 0. -/
theorem mode_selection_sentinel_witness :
    fcsigB.mode_of 0 = fcsigB.Mode.sigtest
    ∧ fcsigB.extra_filter 0 fcsigB.exRowSig = fcsigB.sigB_filter 0 fcsigB.exRowSig :=
  (mode_selection_sentinel 0 fcsigB.exRowSig).2.2 (by decide) (by decide) (by decide)

/-- Claim C9, counterexample.  When the selection query of `mzscore.py`
raises `sqlite3.OperationalError`, the process exits with status 1 but the
already-opened output file is left on disk, contrary to the claim that both
entry points delete it. -/
theorem operror_outfile_counterexample :
    (mzscore_run QueryOutcome.opError).exitCode = 1
    ∧ (mzscore_run QueryOutcome.opError).outfileExists = true := by
  exact ⟨rfl, rfl⟩

/-- Claim C9, amended.  On an operational error both entry points exit with
status 1; `fcsigB.py` deletes the partially-opened output file, while
`mzscore.py` leaves it in place. -/
theorem operror_exit_behaviour :
    fcsigB_run QueryOutcome.opError = ⟨1, false⟩
    ∧ (mzscore_run QueryOutcome.opError).exitCode = 1
    ∧ (mzscore_run QueryOutcome.opError).outfileExists = true := by
  exact ⟨rfl, rfl, rfl⟩

/-- An inverse-direction channel of the view is the negation of the matching
forward-direction channel, for any stored score. -/
theorem inv_channel_neg_fwd (s : SqlVal) :
    mzscore.inv_channel s = (mzscore.fwd_channel s).map (fun x => -x) := by
  cases s with
  | none => rfl
  | some q =>
    simp [mzscore.inv_channel, mzscore.fwd_channel, neg_one_mul, round4_neg]

/-- Claim C3.  For every log2-transformed ratio value and every bucket
statistic (all may be `NULL`), the derived inverse-direction channel of the
`V_PGROUP_MZSCORE` view is exactly the negation of the forward-direction
channel, for both the Z-score and the M-score, including after the
4-decimal rounding applied in the view. -/
theorem inverse_channel_neg_forward (l mean sd med mad : SqlVal) :
    mzscore.inv_channel (mzscore.z_score l mean sd)
      = (mzscore.fwd_channel (mzscore.z_score l mean sd)).map (fun x => -x)
    ∧ mzscore.inv_channel (mzscore.m_score l med mad)
      = (mzscore.fwd_channel (mzscore.m_score l med mad)).map (fun x => -x) :=
  ⟨inv_channel_neg_fwd _, inv_channel_neg_fwd _⟩

/-- Claim C6.  The sample-standard-deviation aggregate is undefined (`NULL`)
exactly on buckets of fewer than 2 values, and on larger buckets it returns
the nonnegative square root of the sum of squared deviations from the mean
divided by `n - 1`. -/
theorem stdev_sample_divisor (l : List ℚ) :
    (mzscore.finalizeStdev l = none ↔ l.length < 2)
    ∧ (2 ≤ l.length →
        ∃ s : ℝ, mzscore.finalizeStdev l = some s ∧ 0 ≤ s ∧
          s ^ 2 * ((l.length : ℝ) - 1)
            = (((l.map (fun x => (x - l.sum / l.length) ^ 2)).sum : ℚ) : ℝ)) := by
  constructor
  · by_cases h0 : l.length = 0
    · simp [mzscore.finalizeStdev, mzscore.sampleVar, h0]
    · by_cases h1 : l.length = 1
      · simp [mzscore.finalizeStdev, mzscore.sampleVar, h0, h1]
      · have h2 : ¬ l.length < 2 := by omega
        simp [mzscore.finalizeStdev, mzscore.sampleVar, h0, h1, h2]
  · intro hn
    have h0 : l.length ≠ 0 := by omega
    have h1 : l.length ≠ 1 := by omega
    have hs : (0:ℚ) ≤ mzscore.sumSqDev l := by
      apply List.sum_nonneg
      intro x hx
      obtain ⟨y, hy, rfl⟩ := List.mem_map.mp hx
      exact sq_nonneg _
    have hd : (0:ℚ) < (l.length : ℚ) - 1 := by
      have h2 : (2:ℚ) ≤ (l.length : ℚ) := by exact_mod_cast hn
      linarith
    have hnn : (0:ℚ) ≤ mzscore.sumSqDev l / ((l.length : ℚ) - 1) :=
      div_nonneg hs (le_of_lt hd)
    refine ⟨Real.sqrt ((mzscore.sumSqDev l / ((l.length : ℚ) - 1) : ℚ) : ℝ),
      by simp [mzscore.finalizeStdev, mzscore.sampleVar, h0, h1], Real.sqrt_nonneg _, ?_⟩
    rw [Real.sq_sqrt (by exact_mod_cast hnn)]
    have hcast : ((mzscore.sumSqDev l / ((l.length : ℚ) - 1) : ℚ) : ℝ)
        = (mzscore.sumSqDev l : ℝ) / ((l.length : ℝ) - 1) := by
      push_cast
      ring
    rw [hcast, div_mul_cancel₀]
    · rfl
    · have h2 : (2:ℝ) ≤ (l.length : ℝ) := by exact_mod_cast hn
      linarith

/-- Witness for C6 on the bucket of log2 values of the ratios 1, 2, 4, 8. -/
theorem stdev_sample_divisor_witness :
    ∃ s : ℝ, mzscore.finalizeStdev [0, 1, 2, 3] = some s ∧ 0 ≤ s ∧
      s ^ 2 * ((([0, 1, 2, 3] : List ℚ).length : ℝ) - 1)
        = (((([0, 1, 2, 3] : List ℚ).map
            (fun x => (x - ([0, 1, 2, 3] : List ℚ).sum / ([0, 1, 2, 3] : List ℚ).length) ^ 2)).sum : ℚ) : ℝ) :=
  (stdev_sample_divisor [0, 1, 2, 3]).2 (by decide)

/-- Claim C7, counterexample.  A `PGROUP_QUANT` row carrying the negative
ratio value −1 passes the bare `AND quant_value` truthiness filter of the
view, so `V_PGROUP_RATIO` does contain a row with a non-positive ratio
value. -/
theorem ratio_view_positive_counterexample :
    ¬ (∀ rr ∈ mzscore.v_pgroup_ratio_view [mzscore.negQuantRec] [1],
        ∀ q : ℚ, rr.ratio_value = some q → 0 < q) := by
  intro hall
  have hmem : (⟨1, "VH10_L0_M0_H1", some "raw_ratio_HL", some (-1)⟩ : mzscore.RatioRec)
      ∈ mzscore.v_pgroup_ratio_view [mzscore.negQuantRec] [1] := by decide
  have hpos := hall _ hmem (-1) rfl
  norm_num at hpos

/-- Claim C7, amended.  The view's truthiness filter excludes exactly the
absent (`NULL`) and zero ratio values before aggregation: every row of
`V_PGROUP_RATIO` carries a present, non-zero — though not necessarily
positive — ratio value. -/
theorem ratio_view_excludes_null_zero
    (quants : List mzscore.PGroupQuantRec) (grpIds : List ℕ) :
    ∀ rr ∈ mzscore.v_pgroup_ratio_view quants grpIds,
      ∃ q : ℚ, rr.ratio_value = some q ∧ q ≠ 0 := by
  intro rr hrr
  unfold mzscore.v_pgroup_ratio_view at hrr
  obtain ⟨r, hr, heq⟩ := List.mem_filterMap.mp hrr
  by_cases hc : (grpIds.contains r.grp_id
      && (mzscore.ratio_types.map Prod.fst).contains r.quant_type
      && mzscore.sqlTruthy r.quant_value) = true
  · rw [if_pos hc] at heq
    have hrr' := (Option.some.inj heq).symm
    have ht : mzscore.sqlTruthy r.quant_value = true := by
      simp only [Bool.and_eq_true] at hc
      exact hc.2
    cases hv : r.quant_value with
    | none =>
      rw [hv] at ht
      exact absurd ht (by simp [mzscore.sqlTruthy])
    | some q =>
      refine ⟨q, ?_, ?_⟩
      · rw [hrr']
        exact hv
      · rw [hv] at ht
        simpa [mzscore.sqlTruthy] using ht
  · rw [if_neg hc] at heq
    exact absurd heq (by simp)

/-- Witness for the amended C7 theorem on the negative-value row. -/
theorem ratio_view_excludes_null_zero_witness :
    ∃ q : ℚ,
      (⟨1, "VH10_L0_M0_H1", some "raw_ratio_HL", some (-1)⟩ : mzscore.RatioRec).ratio_value
        = some q ∧ q ≠ 0 :=
  ratio_view_excludes_null_zero [mzscore.negQuantRec] [1] _ (by decide)

/-- Rounding to 4 decimals fixes 0. -/
theorem round4_zero : round4 0 = 0 := by
  norm_num [round4]

/-- Rounding to 4 decimals fixes 2. -/
theorem round4_two : round4 2 = 2 := by
  norm_num [round4]

/-- A forward channel is `NULL` exactly when its underlying aggregate is. -/
theorem fwd_channel_eq_none_iff (s : SqlVal) :
    mzscore.fwd_channel s = none ↔ s = none := by
  cases s <;> simp [mzscore.fwd_channel]

/-- An inverse channel is `NULL` exactly when its underlying aggregate is. -/
theorem inv_channel_eq_none_iff (s : SqlVal) :
    mzscore.inv_channel s = none ↔ s = none := by
  cases s <;> simp [mzscore.inv_channel]

/-- A satisfied SQL `>` comparison has a non-`NULL` left operand. -/
theorem sgt_left_ne_none {a b : SqlVal} (h : sgt a b = true) : a ≠ none := by
  cases a
  · cases b <;> simp [sgt] at h
  · simp

/-- A satisfied SQL `<=` comparison has a non-`NULL` left operand. -/
theorem sle_left_ne_none {a b : SqlVal} (h : sle a b = true) : a ≠ none := by
  cases a
  · cases b <;> simp [sle] at h
  · simp

/-- Rendering a row of present cells in `mzscore.py` never aborts, and every
output cell is a 4-decimal-rounded number. -/
theorem render_row_mzscore_all_some (cells : List SqlVal)
    (h : ∀ x ∈ cells, ∃ q : ℚ, x = some q) :
    ∃ out : List Cell, render_row_mzscore cells = some out
      ∧ ∀ cell ∈ out, ∃ q : ℚ, cell = Cell.num (round4 q) := by
  induction cells with
  | nil => exact ⟨[], rfl, by simp⟩
  | cons x xs ih =>
    obtain ⟨q, rfl⟩ := h x (by simp)
    obtain ⟨out, hout, hcells⟩ := ih (fun y hy => h y (by simp [hy]))
    refine ⟨Cell.num (round4 q) :: out, ?_, ?_⟩
    · simp [render_row_mzscore, render_cell_mzscore, hout]
    · intro cell hcell
      rcases List.mem_cons.mp hcell with rfl | hmem
      · exact ⟨q, rfl⟩
      · exact hcells cell hmem

/-- In a realizable `V_PGROUP_MZSCORE` row that passes the `WHERE` clause,
every emitted score cell is present: the view derives a pair's two
directional columns from the same aggregate, so the satisfied branch of the
clause forces the underlying aggregates of all six emitted columns to be
non-`NULL`. -/
theorem mz_where_cells_some (c : ℚ) (src : mzscore.MZSource)
    (hw : mzscore.mz_where c (mzscore.mkMZRow src) = true) :
    ∀ x ∈ mzscore.mz_score_cells (mzscore.mkMZRow src), ∃ q : ℚ, x = some q := by
  simp only [mzscore.mz_where, mzscore.mkMZRow, Bool.and_eq_true, Bool.or_eq_true,
    and_assoc] at hw
  obtain ⟨hbr, hML1, hLM1, hML2, hLM2⟩ := hw
  have hs1ML : src.s1ML ≠ none :=
    fun hn => sle_left_ne_none hLM1 ((inv_channel_eq_none_iff _).mpr hn)
  have hs2ML : src.s2ML ≠ none :=
    fun hn => sle_left_ne_none hLM2 ((inv_channel_eq_none_iff _).mpr hn)
  have hs1HL : src.s1HL ≠ none := by
    rcases hbr with ⟨h, _, _, _⟩ | ⟨h, _, _, _⟩
    · exact fun hn => sgt_left_ne_none h ((fwd_channel_eq_none_iff _).mpr hn)
    · exact fun hn => sgt_left_ne_none h ((inv_channel_eq_none_iff _).mpr hn)
  have hs1HM : src.s1HM ≠ none := by
    rcases hbr with ⟨_, h, _, _⟩ | ⟨_, h, _, _⟩
    · exact fun hn => sgt_left_ne_none h ((fwd_channel_eq_none_iff _).mpr hn)
    · exact fun hn => sgt_left_ne_none h ((inv_channel_eq_none_iff _).mpr hn)
  have hs2HL : src.s2HL ≠ none := by
    rcases hbr with ⟨_, _, h, _⟩ | ⟨_, _, h, _⟩
    · exact fun hn => sgt_left_ne_none h ((inv_channel_eq_none_iff _).mpr hn)
    · exact fun hn => sgt_left_ne_none h ((fwd_channel_eq_none_iff _).mpr hn)
  have hs2HM : src.s2HM ≠ none := by
    rcases hbr with ⟨_, _, _, h⟩ | ⟨_, _, _, h⟩
    · exact fun hn => sgt_left_ne_none h ((inv_channel_eq_none_iff _).mpr hn)
    · exact fun hn => sgt_left_ne_none h ((fwd_channel_eq_none_iff _).mpr hn)
  intro x hx
  have hsome : ∀ s : SqlVal, s ≠ none →
      (∃ q : ℚ, mzscore.fwd_channel s = some q) ∧
      (∃ q : ℚ, mzscore.inv_channel s = some q) := by
    intro s hs
    cases s with
    | none => exact absurd rfl hs
    | some v => exact ⟨⟨round4 v, rfl⟩, ⟨round4 (-1 * v), rfl⟩⟩
  simp only [mzscore.mz_score_cells, mzscore.mkMZRow, List.mem_cons,
    List.mem_singleton, List.not_mem_nil, or_false] at hx
  rcases hx with rfl | rfl | rfl | rfl | rfl | rfl
  · exact (hsome _ hs1HL).1
  · exact (hsome _ hs2HL).2
  · exact (hsome _ hs1HM).1
  · exact (hsome _ hs2HM).2
  · exact (hsome _ hs1ML).2
  · exact (hsome _ hs2ML).2

/-- The example source passes the `WHERE` clause at cutoff 1. -/
theorem mz_where_exMZSource :
    mzscore.mz_where 1 (mzscore.mkMZRow mzscore.exMZSource) = true := by
  norm_num [mzscore.mz_where, mzscore.mkMZRow, mzscore.exMZSource,
            mzscore.fwd_channel, mzscore.inv_channel, sgt, sle,
            round4_two, round4_zero]

/-- Claim C8.  In `fcsigB.py` every `NULL` cell renders as the literal `NA`
marker and every numeric cell as its value rounded to 4 decimals, so a
`NULL` cell never aborts that run; in `mzscore.py` every realizable
`V_PGROUP_MZSCORE` row that passes the `WHERE` clause has only non-`NULL`
emitted score cells (the view couples each pair's directional columns), so
rendering never aborts there either and emits only 4-decimal-rounded
numeric cells, and the `PVALUE` of a non-`NULL` score is non-`NULL` too. -/
theorem rendering_contract (cells : List SqlVal) (c : ℚ) (src : mzscore.MZSource) :
    ((none ∈ cells → Cell.NA ∈ render_row_fcsigB cells)
     ∧ (∀ q : ℚ, some q ∈ cells → Cell.num (round4 q) ∈ render_row_fcsigB cells))
    ∧ (mzscore.mz_where c (mzscore.mkMZRow src) = true →
        ∃ out : List Cell,
          render_row_mzscore (mzscore.mz_score_cells (mzscore.mkMZRow src)) = some out
          ∧ ∀ cell ∈ out, ∃ q : ℚ, cell = Cell.num (round4 q))
    ∧ (∀ t : Option ℝ, t ≠ none → pvalue t ≠ none) := by
  refine ⟨⟨fun h => List.mem_map.mpr ⟨none, h, rfl⟩,
           fun q h => List.mem_map.mpr ⟨some q, h, rfl⟩⟩, ?_, ?_⟩
  · intro hw
    exact render_row_mzscore_all_some _ (mz_where_cells_some c src hw)
  · intro t ht
    cases t with
    | none => exact absurd rfl ht
    | some u => simp [pvalue]

/-- Witness for C8 on a concrete `fcsigB.py` row and the realizable
`mzscore.py` row of `exMZSource`. -/
theorem rendering_contract_witness :
    Cell.NA ∈ render_row_fcsigB [some 3, none]
    ∧ Cell.num (round4 3) ∈ render_row_fcsigB [some 3, none]
    ∧ (∃ out : List Cell,
        render_row_mzscore (mzscore.mz_score_cells (mzscore.mkMZRow mzscore.exMZSource))
          = some out
        ∧ ∀ cell ∈ out, ∃ q : ℚ, cell = Cell.num (round4 q))
    ∧ pvalue (some 0) ≠ none :=
  ⟨(rendering_contract [some 3, none] 1 mzscore.exMZSource).1.1 (by decide),
   (rendering_contract [some 3, none] 1 mzscore.exMZSource).1.2 3 (by decide),
   (rendering_contract [some 3, none] 1 mzscore.exMZSource).2.1 mz_where_exMZSource,
   (rendering_contract [some 3, none] 1 mzscore.exMZSource).2.2 (some 0) (by simp)⟩

/-- Claim C10.  The `log(value, base)` user-defined function is total: on
every input pair — absent values, non-positive values and base 1 included —
it returns either `log(value)/log(base)` or `None`, and in particular it
returns `None` whenever the base is 1. -/
theorem logUDF_total (v b : Option ℝ) :
    (logUDF v b = none ∨
      ∃ x y : ℝ, v = some x ∧ b = some y ∧ 0 < x ∧ 0 < y ∧
        logUDF v b = some (Real.log x / Real.log y))
    ∧ logUDF v (some 1) = none := by
  constructor
  · rcases v with _ | x
    · left
      rfl
    · rcases b with _ | y
      · left
        rfl
      · by_cases h : 0 < x ∧ 0 < y ∧ Real.log y ≠ 0
        · right
          exact ⟨x, y, rfl, rfl, h.1, h.2.1, by simp only [logUDF]; rw [if_pos h]⟩
        · left
          simp only [logUDF]
          rw [if_neg h]
  · rcases v with _ | x
    · rfl
    · have h1 : ¬ (0 < x ∧ 0 < (1:ℝ) ∧ Real.log 1 ≠ 0) := by
        simp [Real.log_one]
      simp only [logUDF]
      rw [if_neg h1]

/-- Negation maps the standard Gaussian measure to itself. -/
theorem gaussian_std_map_neg :
    (ProbabilityTheory.gaussianReal 0 1).map (fun x => -x)
      = ProbabilityTheory.gaussianReal 0 1 := by
  have h := ProbabilityTheory.gaussianReal_map_const_mul (μ := 0) (v := 1) (-1)
  have h2 : (fun x : ℝ => -1 * x) = (fun x : ℝ => -x) := by
    funext x
    ring
  have h3 : ((⟨(-1:ℝ)^2, sq_nonneg _⟩ : NNReal) * 1) = (1 : NNReal) := by
    rw [mul_one]
    apply NNReal.coe_injective
    norm_num
  rw [h2, h3] at h
  simpa using h

/-- Reflection identity of the standard normal CDF: `Φ(-x) = 1 - Φ(x)`. -/
theorem stdNormCDF_neg (x : ℝ) : stdNormCDF (-x) = 1 - stdNormCDF x := by
  have hmap : ProbabilityTheory.gaussianReal 0 1 (Set.Iic (-x))
      = ProbabilityTheory.gaussianReal 0 1 (Set.Ici x) := by
    conv_lhs => rw [← gaussian_std_map_neg]
    rw [MeasureTheory.Measure.map_apply measurable_neg measurableSet_Iic]
    congr 1
    ext y
    simp
  have hatom : ProbabilityTheory.gaussianReal 0 1 {x} = 0 :=
    ProbabilityTheory.gaussianReal_absolutelyContinuous 0 one_ne_zero
      (MeasureTheory.measure_singleton x)
  have hIic : ProbabilityTheory.gaussianReal 0 1 (Set.Iic x)
      = ProbabilityTheory.gaussianReal 0 1 (Set.Iio x) := by
    rw [← Set.Iio_union_right]
    refine le_antisymm ?_ (MeasureTheory.measure_mono Set.subset_union_left)
    have hle := MeasureTheory.measure_union_le
      (μ := ProbabilityTheory.gaussianReal 0 1) (Set.Iio x) {x}
    rwa [hatom, add_zero] at hle
  have hsum : ProbabilityTheory.gaussianReal 0 1 (Set.Iio x)
      + ProbabilityTheory.gaussianReal 0 1 (Set.Ici x) = 1 := by
    have hc := MeasureTheory.measure_add_measure_compl
      (μ := ProbabilityTheory.gaussianReal 0 1) (measurableSet_Iio (a := x))
    rwa [Set.compl_Iio, MeasureTheory.measure_univ] at hc
  have hfin1 : ProbabilityTheory.gaussianReal 0 1 (Set.Iio x) ≠ ⊤ :=
    MeasureTheory.measure_ne_top _ _
  have hfin2 : ProbabilityTheory.gaussianReal 0 1 (Set.Ici x) ≠ ⊤ :=
    MeasureTheory.measure_ne_top _ _
  have htr := congrArg ENNReal.toReal hsum
  rw [ENNReal.toReal_add hfin1 hfin2, ENNReal.one_toReal] at htr
  rw [stdNormCDF, stdNormCDF, ProbabilityTheory.cdf_eq_toReal,
      ProbabilityTheory.cdf_eq_toReal, hmap, hIic]
  linarith

/-- Claim C5.  For every non-null score `s`, the `pvalue` user-defined
function returns the two-tailed probability `2 * (1 - Φ(|s|))` under the
standard normal CDF `Φ`, and it returns `None` exactly on the null input;
being a total function on `Option ℝ`, it never fails. -/
theorem pvalue_two_tailed (s : ℝ) :
    pvalue (some s) = some (2 * (1 - stdNormCDF |s|))
    ∧ ∀ t : Option ℝ, (pvalue t = none ↔ t = none) := by
  constructor
  · show some (2 * stdNormCDF (-|s|)) = some (2 * (1 - stdNormCDF |s|))
    rw [stdNormCDF_neg]
  · intro t
    cases t with
    | none => simp [pvalue]
    | some u => simp [pvalue]
